import Mathlib

set_option autoImplicit false

/-!
Shallow embedding of the jsonrpsee HTTP server request pipeline,
translated from src/http-server/src/server.rs. Parts of the pipeline that
live in sibling crates of this repository (jsonrpsee-core, jsonrpsee-types:
the serde derived parsers, the method sink, the access control object and
the response constructors) are modelled from the spec and marked as such in
their doc comments.
-/

/-- JSON values. Numbers are modelled as naturals, which covers the
JSON-RPC id domain (unsigned 64 bit in the source) and every payload this
development needs. -/
inductive Json where
  | null
  | bool (b : Bool)
  | num (n : Nat)
  | str (s : String)
  | arr (elems : List Json)
  | obj (fields : List (String × Json))

/-- Request id as in jsonrpsee_types Id: null, an unsigned number, or a string. -/
inductive RpcId where
  | null
  | num (n : Nat)
  | str (s : String)
deriving DecidableEq

/-- Standard JSON-RPC 2.0 error code ParseError. -/
def parseErrorCode : Int := -32700

/-- Standard JSON-RPC 2.0 error code InvalidRequest. -/
def invalidRequestCode : Int := -32600

/-- Standard JSON-RPC 2.0 error code MethodNotFound. -/
def methodNotFoundCode : Int := -32601

/-- Standard JSON-RPC 2.0 error code InternalError. -/
def internalErrorCode : Int := -32603

/-- Modelled from the spec: the server defined ServerIsBusy error code of
jsonrpsee-types (outside src/). The spec only requires it to be a distinct
server defined code. -/
def serverIsBusyCode : Int := -32604

/-- Modelled from the spec: the server defined BatchesNotSupported error
code BATCHES_NOT_SUPPORTED_CODE of jsonrpsee-types (outside src/). The spec
only requires it to be a distinct server defined code. -/
def batchesNotSupportedCode : Int := -32005

/-- A response envelope as written to the method sink: either a result
carrying the original id or an error object carrying a code and the
original id. The source serializes each envelope to a JSON string before
sending it on the channel; the development keeps the structure, which that
serialization determines uniquely. -/
inductive Envelope where
  | result (id : RpcId) (value : Json)
  | error (id : RpcId) (code : Int)

/-- First field of the given name in a JSON object field list, as serde
reads named fields. -/
def getField (fields : List (String × Json)) (name : String) : Option Json :=
  (fields.find? (fun f => f.1 == name)).map (fun f => f.2)

/-- Modelled from the spec: deserialization of jsonrpsee_types Id (outside
src/). An id is JSON null, an unsigned number, or a string; anything else
fails. -/
def parseId : Json → Option RpcId
  | .null => some .null
  | .num n => some (.num n)
  | .str s => some (.str s)
  | _ => none

/-- A parsed JSON-RPC request: id, method name and the raw params value. -/
structure Request where
  id : RpcId
  method : String
  params : Option Json

/-- Modelled from the spec: deserialization of jsonrpsee_types Request
(outside src/). A request is a JSON object with jsonrpc equal to the string
2.0, a string method, a required id field that parses as an RpcId, and an
optional params field kept as a raw value. Unrecognized fields are ignored,
the default for the serde derived types of this repository. -/
def parseRequest (j : Json) : Option Request :=
  match j with
  | .obj fields =>
    match getField fields "jsonrpc", getField fields "id", getField fields "method" with
    | some (.str ver), some idJson, some (.str m) =>
      if ver == "2.0" then
        (parseId idJson).map (fun id => { id := id, method := m, params := getField fields "params" })
      else none
    | _, _, _ => none
  | _ => none

/-- A parsed JSON-RPC notification: method name and raw params, no id. -/
structure Notif where
  method : String
  params : Option Json

/-- Modelled from the spec: deserialization of jsonrpsee_types Notification
(outside src/), the alias Notif of the source. A notification is a JSON
object with jsonrpc equal to the string 2.0 and a string method; following
the data model of the spec it carries no id field of its own, and
unrecognized fields (a present id among them) are ignored, the default for
the serde derived types of this repository. -/
def parseNotif (j : Json) : Option Notif :=
  match j with
  | .obj fields =>
    match getField fields "jsonrpc", getField fields "method" with
    | some (.str ver), some (.str m) =>
      if ver == "2.0" then some { method := m, params := getField fields "params" }
      else none
    | _, _ => none
  | _ => none

/-- Modelled from the spec: serde deserialization of a vector of requests.
It succeeds exactly when the value is a JSON array and every element parses
as a request. -/
def parseBatchRequests (j : Json) : Option (List Request) :=
  match j with
  | .arr elems => elems.mapM parseRequest
  | _ => none

/-- Modelled from the spec: serde deserialization of a vector of
notifications. It succeeds exactly when the value is a JSON array and every
element parses as a notification. -/
def parseBatchNotifs (j : Json) : Option (List Notif) :=
  match j with
  | .arr elems => elems.mapM parseNotif
  | _ => none

/-- Modelled from the spec: the helper prepare_error of jsonrpsee-core
(outside src/). The id is best effort extracted from the body when the body
is a JSON object whose id field parses, giving an InvalidRequest error;
otherwise the error is ParseError with a null id. -/
def prepareError (body : Option Json) : Envelope :=
  match body with
  | some (.obj fields) =>
    match (getField fields "id").bind parseId with
    | some id => .error id invalidRequestCode
    | none => .error .null parseErrorCode
  | _ => .error .null parseErrorCode

/-- Call parameters as built by Params::new in the source: the request URI
path (absent for health calls) and the raw params value of the request. -/
structure RpcParams where
  uriPath : Option String
  raw : Option Json

/-- A handler callback. The source hands the callback an id, the params and
the sink and receives a success boolean; the development models the sink
writes of one invocation as the returned list of envelopes. The method sink
of jsonrpsee-core (outside src/) turns every send into exactly one string
on the channel, substituting an oversized response error when the size
budget would overflow, so one send is one envelope at this level. -/
abbrev RpcCallback : Type := RpcId → RpcParams → List Envelope × Bool

/-- Method kinds as in jsonrpsee-core MethodKind. Subscription and
unsubscription callbacks are never invoked by the HTTP server, so their
payloads are not modelled. -/
inductive MethodKind where
  | sync (callback : RpcCallback)
  | async (callback : RpcCallback)
  | subscription
  | unsubscription

/-- A registered method. Modelled from the spec: the resource claim of
jsonrpsee-core (outside src/) is an all or nothing acquisition against the
resource tracker; the development records its outcome for the method as the
boolean claimOk. -/
structure MethodEntry where
  kind : MethodKind
  claimOk : Bool

/-- The method registry: a name to entry association, looked up by exact
name as Methods::method_with_name does. -/
abbrev Methods : Type := List (String × MethodEntry)

/-- Exact name lookup in the registry, first match. -/
def lookupMethod (methods : Methods) (name : String) : Option MethodEntry :=
  (methods.find? (fun m => m.1 == name)).map (fun m => m.2)

/-- Body of an HTTP response. The source builds strings; the development
keeps the JSON-RPC payloads structured: empty body, a single envelope, a
joined array of envelopes as collect_batch_response produces, the rendered
result value of a health call, or a fixed error text. -/
inductive ResponseBody where
  | empty
  | single (e : Envelope)
  | batch (envelopes : List Envelope)
  | jsonValue (v : Json)
  | text (s : String)

/-- An HTTP response: status code, body, and the optional
access-control-allow-origin header value. -/
structure HttpResponse where
  status : Nat
  body : ResponseBody
  corsAllowOrigin : Option String

/-- Number of JSON-RPC envelopes carried by a response body. -/
def ResponseBody.envelopeCount : ResponseBody → Nat
  | .single _ => 1
  | .batch envelopes => envelopes.length
  | _ => 0

/-- Modelled from the spec: ok_response of the response module (outside
src/), status 200 with content type application/json. -/
def okResponse (b : ResponseBody) : HttpResponse :=
  { status := 200, body := b, corsAllowOrigin := none }

/-- Modelled from the spec: malformed of the response module (outside
src/), status 400. -/
def malformedResponse : HttpResponse :=
  { status := 400, body := .text "malformed request", corsAllowOrigin := none }

/-- Modelled from the spec: host_not_allowed of the response module
(outside src/), one of the three distinct 403 denials. -/
def hostNotAllowedResponse : HttpResponse :=
  { status := 403, body := .text "provided host not allowed", corsAllowOrigin := none }

/-- Modelled from the spec: invalid_allow_origin of the response module
(outside src/), one of the three distinct 403 denials. -/
def invalidAllowOriginResponse : HttpResponse :=
  { status := 403, body := .text "origin not allowed", corsAllowOrigin := none }

/-- Modelled from the spec: invalid_allow_headers of the response module
(outside src/), one of the three distinct 403 denials. -/
def invalidAllowHeadersResponse : HttpResponse :=
  { status := 403, body := .text "header not allowed", corsAllowOrigin := none }

/-- Modelled from the spec: method_not_allowed of the response module
(outside src/), status 405. -/
def methodNotAllowedResponse : HttpResponse :=
  { status := 405, body := .text "used http method not allowed", corsAllowOrigin := none }

/-- Modelled from the spec: unsupported_content_type of the response module
(outside src/), status 415. -/
def unsupportedContentTypeResponse : HttpResponse :=
  { status := 415, body := .text "supplied content type is not allowed", corsAllowOrigin := none }

/-- Modelled from the spec: too_large of the response module (outside
src/), status 413 carrying the configured limit. -/
def tooLargeResponse (limit : Nat) : HttpResponse :=
  { status := 413, body := .text (toString limit), corsAllowOrigin := none }

/-- Modelled from the spec: internal_error of the response module (outside
src/), status 500. -/
def internalErrorResponse : HttpResponse :=
  { status := 500, body := .text "internal error", corsAllowOrigin := none }

/-- Dispatch of one call in single mode, lines 616 to 654 of the source:
lookup by exact name (absent gives MethodNotFound), claim the resources
(busy gives ServerIsBusy), run sync and async callbacks, reject
subscription kinds with InternalError. Returns the envelopes written to the
sink and the success boolean passed to middleware.on_result. -/
def executeSingleCall (methods : Methods) (uriPath : String) (req : Request) :
    List Envelope × Bool :=
  let params : RpcParams := { uriPath := some uriPath, raw := req.params }
  match lookupMethod methods req.method with
  | none => ([.error req.id methodNotFoundCode], false)
  | some entry =>
    match entry.kind with
    | .sync callback =>
      if entry.claimOk then callback req.id params
      else ([.error req.id serverIsBusyCode], false)
    | .async callback =>
      if entry.claimOk then callback req.id params
      else ([.error req.id serverIsBusyCode], false)
    | .subscription => ([.error req.id internalErrorCode], false)
    | .unsubscription => ([.error req.id internalErrorCode], false)

/-- One step of the batch fan out, lines 684 to 741 of the source. The
closure passed to filter_map sends method not found, busy, subscription and
sync handler envelopes inline and returns None for them; async calls return
Some future whose envelopes appear when join_all runs the futures. The
first component is the inline envelopes of this element, the second the
deferred ones. -/
def batchStep (methods : Methods) (uriPath : String) (req : Request) :
    List Envelope × List Envelope :=
  let params : RpcParams := { uriPath := some uriPath, raw := req.params }
  match lookupMethod methods req.method with
  | none => ([.error req.id methodNotFoundCode], [])
  | some entry =>
    match entry.kind with
    | .sync callback =>
      if entry.claimOk then ((callback req.id params).1, [])
      else ([.error req.id serverIsBusyCode], [])
    | .async callback =>
      if entry.claimOk then ([], (callback req.id params).1)
      else ([.error req.id serverIsBusyCode], [])
    | .subscription => ([.error req.id internalErrorCode], [])
    | .unsubscription => ([.error req.id internalErrorCode], [])

/-- All envelopes a batch produces: the inline ones in element order, then
the deferred async ones. The source interleaves the async sends in handler
completion order, which JSON-RPC leaves unordered; the development
linearizes that order, and only order insensitive facts (counts and
membership) are proved about batches. -/
def executeBatch (methods : Methods) (uriPath : String) (reqs : List Request) :
    List Envelope :=
  let steps := reqs.map (batchStep methods uriPath)
  (steps.map (fun s => s.1)).flatten ++ (steps.map (fun s => s.2)).flatten

/-- Single mode response assembly, lines 763 to 768 of the source: after
closing the channel, rx.next reads the first envelope and the expect call
panics when none was sent. The panic is modelled as none. -/
def finishSingle (envelopes : List Envelope) : Option HttpResponse :=
  envelopes.head?.map (fun e => okResponse (.single e))

/-- The JSON-RPC state machine of process_validated_request, lines 594 to
771 of the source, after the body has been read. The body argument is the
parse result of the raw bytes (none when they are not valid JSON) and
isSingle is the flag read_body derived from the first byte. -/
def processBody (batchRequestsSupported : Bool) (methods : Methods) (uriPath : String)
    (body : Option Json) (isSingle : Bool) : Option HttpResponse :=
  if isSingle then
    match body.bind parseRequest with
    | some req => finishSingle (executeSingleCall methods uriPath req).1
    | none =>
      match body.bind parseNotif with
      | some _ => some (okResponse .empty)
      | none => finishSingle [prepareError body]
  else
    match body.bind parseBatchRequests with
    | some batch =>
      if !batchRequestsSupported then
        finishSingle [.error .null batchesNotSupportedCode]
      else if !batch.isEmpty then
        some (okResponse (.batch (executeBatch methods uriPath batch)))
      else
        finishSingle [.error .null invalidRequestCode]
    | none =>
      match body.bind parseBatchNotifs with
      | some _ => some (okResponse .empty)
      | none => finishSingle [prepareError body]

/-- Outcome of reading the request body. Modelled from the spec: read_body
of jsonrpsee-core (outside src/) fails with too large, malformed or a
transport error, and otherwise yields the bytes together with a single
flag derived from the first non whitespace byte being an opening curly
brace. Valid JSON bodies are carried parsed; okInvalid records a body that
is not valid JSON together with that first byte flag. -/
inductive ReadBodyResult where
  | tooLarge
  | malform
  | innerError
  | okJson (body : Json)
  | okInvalid (firstByteIsBrace : Bool)

/-- Whether a JSON value is an object, which for a valid JSON body is
exactly the first byte flag of read_body. -/
def Json.isObj : Json → Bool
  | .obj _ => true
  | _ => false

/-- The function process_validated_request of the source, lines 572 to 772:
read body outcomes first, then the JSON-RPC state machine. Middleware
hooks and tracing are observation only and are not modelled; none models a
panic of the task. -/
def processValidatedRequest (methods : Methods) (uriPath : String)
    (maxRequestBodySize : Nat) (batchRequestsSupported : Bool)
    (rb : ReadBodyResult) : Option HttpResponse :=
  match rb with
  | .tooLarge => some (tooLargeResponse maxRequestBodySize)
  | .malform => some malformedResponse
  | .innerError => some internalErrorResponse
  | .okJson body => processBody batchRequestsSupported methods uriPath (some body) body.isObj
  | .okInvalid firstByteIsBrace => processBody batchRequestsSupported methods uriPath none firstByteIsBrace

/-- The configured health endpoint: path and method name. -/
structure HealthApi where
  path : String
  method : String

/-- The dispatch part of process_health_request, lines 786 to 805 of the
source: invoke the configured method with id zero and no parameters and no
resource claim, returning the success boolean and the envelopes written to
the sink. An absent method and subscription kinds give false with no
envelope. -/
def healthExec (healthApi : HealthApi) (methods : Methods) : Bool × List Envelope :=
  let params : RpcParams := { uriPath := none, raw := none }
  match lookupMethod methods healthApi.method with
  | none => (false, [])
  | some entry =>
    match entry.kind with
    | .sync callback =>
      let r := callback (.num 0) params
      (r.2, r.1)
    | .async callback =>
      let r := callback (.num 0) params
      (r.2, r.1)
    | .subscription => (false, [])
    | .unsubscription => (false, [])

/-- Outcome of one health request: an HTTP response, a task panic, or the
request pending forever without any response being produced. -/
inductive HealthResult where
  | response (r : HttpResponse)
  | panicked
  | pending

/-- The function process_health_request of the source, lines 774 to 824.
Unlike process_validated_request this path never calls rx.close(), and the
sink created at line 782 holds the only sender and is still alive at the
rx.next().await at line 807: when nothing was written to the sink the
await pends forever, so the request hangs and no response of any status is
produced (the None arm of the source match at line 822 is dead code),
modelled as pending. When an envelope exists and the handler reported
success, the source deserializes the envelope into a struct with a
required result field and calls expect on the outcome: a result envelope
yields 200 with the rendered result value, and an error envelope makes the
expect panic, modelled as panicked. When an envelope exists and the
handler reported failure, the response is the 500 internal error. -/
def processHealthRequest (healthApi : HealthApi) (methods : Methods) :
    HealthResult :=
  let r := healthExec healthApi methods
  match r.2.head? with
  | some env =>
    if r.1 then
      match env with
      | .result _ v => .response (okResponse (.jsonValue v))
      | .error _ _ => .panicked
    else .response internalErrorResponse
  | none => .pending

/-- Modelled from the spec: the AccessControl object of jsonrpsee-core
(outside src/), an immutable policy with the three checks the server gate
evaluates. Each check is a boolean predicate; the development leaves the
allowlist internals abstract. -/
structure ACL where
  verifyHost : String → Bool
  verifyOrigin : Option String → String → Bool
  verifyHeaders : List String → List String → Bool

/-- Modelled from the spec: read_header_value of jsonrpsee-core (outside
src/), the first value of the named header. Header names are kept
lowercase as hyper normalizes them. -/
def readHeaderValue (headers : List (String × String)) (name : String) : Option String :=
  (headers.find? (fun h => h.1 == name)).map (fun h => h.2)

/-- Modelled from the spec: get_cors_request_headers of jsonrpsee-core
(outside src/), the values of the access-control-request-headers headers.
The comma splitting inside one value is not modelled; the header check that
consumes this list is abstract. -/
def getCorsRequestHeaders (headers : List (String × String)) : List String :=
  (headers.filter (fun h => h.1 == "access-control-request-headers")).map (fun h => h.2)

/-- ASCII lowercase of one character, as the Rust ASCII case folding. -/
def asciiLowerChar (c : Char) : Char :=
  if c.isUpper then Char.ofNat (c.toNat + 32) else c

/-- ASCII case insensitive string equality, as eq_ignore_ascii_case: both
sides are ASCII lowercased and compared. -/
def eqIgnoreAsciiCase (a b : String) : Bool :=
  a.data.map asciiLowerChar == b.data.map asciiLowerChar

/-- The function is_json of the source, lines 558 to 569: the content type
indicates JSON when it equals one of the three accepted forms up to ASCII
case. -/
def isJson (contentType : Option String) : Bool :=
  match contentType with
  | some content =>
    eqIgnoreAsciiCase content "application/json" ||
    eqIgnoreAsciiCase content "application/json; charset=utf-8" ||
    eqIgnoreAsciiCase content "application/json;charset=utf-8"
  | none => false

/-- The function content_type_is_json of the source, lines 553 to 555. -/
def contentTypeIsJson (headers : List (String × String)) : Bool :=
  isJson (readHeaderValue headers "content-type")

/-- The function return_origin_if_different_from_host of the source, lines
540 to 550: when both origin and host headers exist and differ, the origin;
otherwise none. -/
def returnOriginIfDifferentFromHost (headers : List (String × String)) : Option String :=
  match readHeaderValue headers "origin", readHeaderValue headers "host" with
  | some origin, some host => if origin != host then some origin else none
  | _, _ => none

/-- HTTP methods distinguished by the gate. -/
inductive HttpMethod where
  | options
  | post
  | get
  | put
  | other (name : String)

/-- An incoming HTTP request as the gate sees it: method, URI path, headers
and the outcome reading its body will produce. -/
structure HttpRequest where
  method : HttpMethod
  uriPath : String
  headers : List (String × String)
  bodyRead : ReadBodyResult

/-- The per request service closure of Server::start, lines 430 to 518 of
the source: missing host gives malformed, then the three access control
checks run in order, then the HTTP method is examined. OPTIONS without an
origin is malformed and otherwise answers the preflight echoing the origin;
POST with a JSON content type runs the processor and afterwards inserts the
access-control-allow-origin header when the origin differs from the host;
GET matching the configured health path runs the health endpoint, whose
panic or hang produces no response, modelled as none; every other
combination is 415 for POST and 405 otherwise. -/
def handleRequest (acl : ACL) (methods : Methods) (healthApi : Option HealthApi)
    (maxRequestBodySize : Nat) (batchRequestsSupported : Bool)
    (req : HttpRequest) : Option HttpResponse :=
  let keys := req.headers.map (fun h => h.1)
  let corsRequestHeaders := getCorsRequestHeaders req.headers
  match readHeaderValue req.headers "host" with
  | none => some malformedResponse
  | some host =>
    let maybeOrigin := readHeaderValue req.headers "origin"
    if !acl.verifyHost host then some hostNotAllowedResponse
    else if !acl.verifyOrigin maybeOrigin host then some invalidAllowOriginResponse
    else if !acl.verifyHeaders keys corsRequestHeaders then some invalidAllowHeadersResponse
    else
      match req.method with
      | .options =>
        match maybeOrigin with
        | none => some malformedResponse
        | some origin => some { status := 200, body := .empty, corsAllowOrigin := some origin }
      | .post =>
        if contentTypeIsJson req.headers then
          let origin := returnOriginIfDifferentFromHost req.headers
          (processValidatedRequest methods req.uriPath maxRequestBodySize
              batchRequestsSupported req.bodyRead).map
            (fun res =>
              match origin with
              | some o => { res with corsAllowOrigin := some o }
              | none => res)
        else some unsupportedContentTypeResponse
      | .get =>
        match healthApi with
        | some health =>
          if health.path == req.uriPath then
            match processHealthRequest health methods with
            | .response r => some r
            | .panicked => none
            | .pending => none
          else some methodNotAllowedResponse
        | none => some methodNotAllowedResponse
      | _ => some methodNotAllowedResponse

/-- The state a ServerHandle owns: whether the receiving end of the one
slot stop channel is still alive, how many stop messages are queued in the
slot, and the join handle (a tag standing for the tokio task). -/
structure ServerHandle where
  receiverAlive : Bool
  queued : Nat
  handle : Option Nat

/-- Error outcome of stop, the AlreadyStopped variant of the source. -/
inductive StopError where
  | alreadyStopped
deriving DecidableEq

/-- The method ServerHandle::stop, lines 344 to 350 of the source: try_send
on the capacity one channel succeeds when the receiver is alive and the
slot is free, then the handle is taken; every other outcome is the
AlreadyStopped error. On success the stop message occupies the slot and the
handle is gone. -/
def ServerHandle.stop (h : ServerHandle) : Except StopError (Nat × ServerHandle) :=
  if h.receiverAlive && h.queued == 0 then
    match h.handle with
    | some j => .ok (j, { receiverAlive := h.receiverAlive, queued := h.queued + 1, handle := none })
    | none => .error .alreadyStopped
  else .error .alreadyStopped

/-- The handle Server::start returns for a freshly started server: channel
of capacity one with a live receiver and the spawned task handle. -/
def runningHandle (j : Nat) : ServerHandle :=
  { receiverAlive := true, queued := 0, handle := some j }

/-- The handler contract of the spec for one entry, exact form: every
invocation of a sync or async callback writes exactly one envelope to the
sink. Subscription kinds carry no callback the HTTP server would run. -/
def entrySendsExactlyOne (entry : MethodEntry) : Prop :=
  match entry.kind with
  | .sync callback => ∀ id params, ((callback id params).1).length = 1
  | .async callback => ∀ id params, ((callback id params).1).length = 1
  | .subscription => True
  | .unsubscription => True

/-- The handler contract of the spec for a registry, exact form. -/
def MethodsSendExactlyOne (methods : Methods) : Prop :=
  ∀ name entry, (name, entry) ∈ methods → entrySendsExactlyOne entry

/-- The handler contract of the spec for one entry, weak form: every
invocation of a sync or async callback writes at least one envelope. -/
def entrySendsAtLeastOne (entry : MethodEntry) : Prop :=
  match entry.kind with
  | .sync callback => ∀ id params, (callback id params).1 ≠ []
  | .async callback => ∀ id params, (callback id params).1 ≠ []
  | .subscription => True
  | .unsubscription => True

/-- The handler contract of the spec for a registry, weak form. -/
def MethodsSendAtLeastOne (methods : Methods) : Prop :=
  ∀ name entry, (name, entry) ∈ methods → entrySendsAtLeastOne entry

/-- A JSON-RPC request object with a numeric id, as a JSON value. -/
def reqJson (m : String) (idNum : Nat) : Json :=
  .obj [("jsonrpc", .str "2.0"), ("id", .num idNum), ("method", .str m)]

/-- A JSON-RPC notification object, as a JSON value: no id field. -/
def notifJson (m : String) : Json :=
  .obj [("jsonrpc", .str "2.0"), ("method", .str m)]

/-- A registry with one well behaved sync method named echo that answers
every call with one result envelope carrying the call id. -/
def echoMethods : Methods :=
  [("echo", { kind := .sync (fun id _ => ([.result id .null], true)), claimOk := true })]

/-- A batch body mixing two requests with ids and one notification. -/
def mixedBatchBody : Json :=
  .arr [reqJson "echo" 1, reqJson "echo" 2, notifJson "echo"]

/-- A batch body of two requests with ids. -/
def twoRequestBatchBody : Json :=
  .arr [reqJson "echo" 1, reqJson "echo" 2]

/-- A registry whose configured health method answers with an error
envelope while reporting success, the shape the standard handler wrappers
produce when the underlying method returns an error. -/
def healthErrMethods : Methods :=
  [("hc", { kind := .sync (fun id _ => ([.error id (-32000)], true)), claimOk := true })]

/-- A health endpoint configuration pointing at the hc method. -/
def healthErrApi : HealthApi :=
  { path := "/health", method := "hc" }

/-- A health endpoint configuration pointing at an unregistered method. -/
def healthMissingApi : HealthApi :=
  { path := "/health", method := "missing" }

/-- A registry whose configured health method writes an error envelope and
reports failure. -/
def healthFalseMethods : Methods :=
  [("hf", { kind := .sync (fun id _ => ([.error id (-32000)], false)), claimOk := true })]

/-- A health endpoint configuration pointing at the hf method. -/
def healthFalseApi : HealthApi :=
  { path := "/health", method := "hf" }

/-- An access control object that allows everything. -/
def allowAllAcl : ACL :=
  { verifyHost := fun _ => true
    verifyOrigin := fun _ _ => true
    verifyHeaders := fun _ _ => true }

/-- An access control object that rejects every host. -/
def rejectHostAcl : ACL :=
  { verifyHost := fun _ => false
    verifyOrigin := fun _ _ => true
    verifyHeaders := fun _ _ => true }

/-- A POST request with JSON content type whose origin header differs from
its host header, carrying an empty batch body. -/
def corsPostRequest : HttpRequest :=
  { method := .post
    uriPath := "/"
    headers := [("host", "server.example"), ("origin", "http://other.example"), ("content-type", "application/json")]
    bodyRead := .okJson (.arr []) }

/-- A PUT request carrying a host header, used to show the access control
checks run before the HTTP method is examined. -/
def putRequest : HttpRequest :=
  { method := .put
    uriPath := "/"
    headers := [("host", "server.example")]
    bodyRead := .okJson (.arr []) }

/-- A registry with one subscription kind method named sub. -/
def subMethods : Methods :=
  [("sub", { kind := .subscription, claimOk := true })]

theorem lookupMethod_mem (methods : Methods) (name : String) (entry : MethodEntry)
    (h : lookupMethod methods name = some entry) : ∃ nm, (nm, entry) ∈ methods := by
  unfold lookupMethod at h
  cases hf : methods.find? (fun m => m.1 == name) with
  | none => rw [hf] at h; cases h
  | some p =>
    rw [hf, Option.map_some'] at h
    injection h with h2
    have hp : p ∈ methods := List.mem_of_find?_eq_some hf
    exact ⟨p.1, by rw [← h2]; exact hp⟩

theorem parseRequest_isObj (j : Json) (req : Request) (h : parseRequest j = some req) :
    j.isObj = true := by
  cases j <;> first | rfl | simp [parseRequest] at h

theorem parseNotif_isObj (j : Json) (n : Notif) (h : parseNotif j = some n) :
    j.isObj = true := by
  cases j <;> first | rfl | simp [parseNotif] at h

theorem parseBatchRequests_notObj (j : Json) (reqs : List Request)
    (h : parseBatchRequests j = some reqs) : j.isObj = false := by
  cases j <;> first | rfl | simp [parseBatchRequests] at h

theorem parseBatchNotifs_notObj (j : Json) (notifs : List Notif)
    (h : parseBatchNotifs j = some notifs) : j.isObj = false := by
  cases j <;> first | rfl | simp [parseBatchNotifs] at h

theorem finishSingle_ne_none (envelopes : List Envelope) (h : envelopes ≠ []) :
    finishSingle envelopes ≠ none := by
  cases envelopes with
  | nil => exact absurd rfl h
  | cons e es => simp [finishSingle]

theorem finishSingle_corsNone (envelopes : List Envelope) (r : HttpResponse)
    (h : finishSingle envelopes = some r) : r.corsAllowOrigin = none := by
  cases envelopes with
  | nil => simp [finishSingle] at h
  | cons e es =>
    simp only [finishSingle, List.head?_cons, Option.map_some'] at h
    injection h with h2
    rw [← h2]; rfl

theorem executeSingleCall_ne_nil (methods : Methods) (uriPath : String) (req : Request)
    (h : MethodsSendAtLeastOne methods) :
    (executeSingleCall methods uriPath req).1 ≠ [] := by
  cases hlook : lookupMethod methods req.method with
  | none => simp [executeSingleCall, hlook]
  | some entry =>
    obtain ⟨nm, hmem⟩ := lookupMethod_mem _ _ _ hlook
    have hcontract := h nm entry hmem
    cases hkind : entry.kind with
    | sync callback =>
      simp only [entrySendsAtLeastOne, hkind] at hcontract
      by_cases hclaim : entry.claimOk = true
      · simp only [executeSingleCall, hlook, hclaim, hkind, if_true]
        exact hcontract req.id _
      · simp [executeSingleCall, hlook, hclaim, hkind]
    | async callback =>
      simp only [entrySendsAtLeastOne, hkind] at hcontract
      by_cases hclaim : entry.claimOk = true
      · simp only [executeSingleCall, hlook, hclaim, hkind, if_true]
        exact hcontract req.id _
      · simp [executeSingleCall, hlook, hclaim, hkind]
    | subscription => simp [executeSingleCall, hlook, hkind]
    | unsubscription => simp [executeSingleCall, hlook, hkind]

theorem batchStep_length_one (methods : Methods) (uriPath : String) (req : Request)
    (h : MethodsSendExactlyOne methods) :
    ((batchStep methods uriPath req).1).length + ((batchStep methods uriPath req).2).length = 1 := by
  cases hlook : lookupMethod methods req.method with
  | none => simp [batchStep, hlook]
  | some entry =>
    obtain ⟨nm, hmem⟩ := lookupMethod_mem _ _ _ hlook
    have hcontract := h nm entry hmem
    cases hkind : entry.kind with
    | sync callback =>
      simp only [entrySendsExactlyOne, hkind] at hcontract
      by_cases hclaim : entry.claimOk = true
      · simp [batchStep, hlook, hclaim, hkind, hcontract req.id]
      · simp [batchStep, hlook, hclaim, hkind]
    | async callback =>
      simp only [entrySendsExactlyOne, hkind] at hcontract
      by_cases hclaim : entry.claimOk = true
      · simp [batchStep, hlook, hclaim, hkind, hcontract req.id]
      · simp [batchStep, hlook, hclaim, hkind]
    | subscription => simp [batchStep, hlook, hkind]
    | unsubscription => simp [batchStep, hlook, hkind]

theorem executeBatch_length (methods : Methods) (uriPath : String)
    (h : MethodsSendExactlyOne methods) :
    ∀ reqs : List Request, (executeBatch methods uriPath reqs).length = reqs.length := by
  intro reqs
  induction reqs with
  | nil => rfl
  | cons r rs ih =>
    have hstep := batchStep_length_one methods uriPath r h
    simp only [executeBatch, List.map_cons, List.flatten_cons, List.length_append,
      List.length_cons] at ih ⊢
    omega

theorem processBody_ne_none (batchSupported : Bool) (methods : Methods) (uriPath : String)
    (body : Option Json) (isSingle : Bool) (h : MethodsSendAtLeastOne methods) :
    processBody batchSupported methods uriPath body isSingle ≠ none := by
  unfold processBody
  split
  · split
    · exact finishSingle_ne_none _ (executeSingleCall_ne_nil methods uriPath _ h)
    · split
      · simp
      · exact finishSingle_ne_none _ (by simp)
  · split
    · split
      · exact finishSingle_ne_none _ (by simp)
      · split
        · simp
        · exact finishSingle_ne_none _ (by simp)
    · split
      · simp
      · exact finishSingle_ne_none _ (by simp)

theorem processBody_corsNone (batchSupported : Bool) (methods : Methods) (uriPath : String)
    (body : Option Json) (isSingle : Bool) (r : HttpResponse)
    (h : processBody batchSupported methods uriPath body isSingle = some r) :
    r.corsAllowOrigin = none := by
  unfold processBody at h
  split at h
  · split at h
    · exact finishSingle_corsNone _ _ h
    · split at h
      · injection h with h2; rw [← h2]; rfl
      · exact finishSingle_corsNone _ _ h
  · split at h
    · split at h
      · exact finishSingle_corsNone _ _ h
      · split at h
        · injection h with h2; rw [← h2]; rfl
        · exact finishSingle_corsNone _ _ h
    · split at h
      · injection h with h2; rw [← h2]; rfl
      · exact finishSingle_corsNone _ _ h

theorem processValidatedRequest_corsNone (methods : Methods) (uriPath : String)
    (maxSize : Nat) (batchSupported : Bool) (rb : ReadBodyResult) (r : HttpResponse)
    (h : processValidatedRequest methods uriPath maxSize batchSupported rb = some r) :
    r.corsAllowOrigin = none := by
  cases rb with
  | tooLarge => injection h with h2; rw [← h2]; rfl
  | malform => injection h with h2; rw [← h2]; rfl
  | innerError => injection h with h2; rw [← h2]; rfl
  | okJson body =>
    simp only [processValidatedRequest] at h
    exact processBody_corsNone _ _ _ _ _ _ h
  | okInvalid b =>
    simp only [processValidatedRequest] at h
    exact processBody_corsNone _ _ _ _ _ _ h

theorem echoSendsExactlyOne : MethodsSendExactlyOne echoMethods := by
  intro name entry hmem
  simp only [echoMethods, List.mem_singleton, Prod.mk.injEq] at hmem
  obtain ⟨-, h2⟩ := hmem
  subst h2
  intro id params
  rfl

theorem echoSendsAtLeastOne : MethodsSendAtLeastOne echoMethods := by
  intro name entry hmem
  simp only [echoMethods, List.mem_singleton, Prod.mk.injEq] at hmem
  obtain ⟨-, h2⟩ := hmem
  subst h2
  intro id params
  simp

/-- C1 (amended): the claim that a batch of N elements with K requests and
M notifications produces exactly K envelopes holds only in the all request
case M equal to zero. Part one: when every element of the array parses as
a request, the batch is nonempty, batch support is on and every handler
writes exactly one envelope per call, the aggregated array holds exactly
one envelope per element. Part two: when the array fails to parse as a
batch of requests but parses as a batch of notifications (which happens
exactly when some element lacks an id, the id bearing elements being
swallowed by the notification parser), the server answers 200 with an
empty body: nothing is dispatched and no envelope is produced. -/
theorem c1BatchEnvelopeCount (methods : Methods) (uriPath : String) (maxSize : Nat) (j : Json) :
    (∀ reqs, parseBatchRequests j = some reqs → reqs ≠ [] → MethodsSendExactlyOne methods →
      ∃ envelopes, processValidatedRequest methods uriPath maxSize true (.okJson j) =
          some (okResponse (.batch envelopes)) ∧ envelopes.length = reqs.length) ∧
    (∀ notifs, parseBatchRequests j = none → parseBatchNotifs j = some notifs →
      processValidatedRequest methods uriPath maxSize true (.okJson j) =
        some (okResponse .empty)) := by
  constructor
  · intro reqs hparse hne hone
    have hobj : j.isObj = false := parseBatchRequests_notObj j reqs hparse
    refine ⟨executeBatch methods uriPath reqs, ?_, executeBatch_length methods uriPath hone reqs⟩
    have heq : processValidatedRequest methods uriPath maxSize true (.okJson j)
        = processBody true methods uriPath (some j) j.isObj := rfl
    rw [heq, hobj]
    have hempty : reqs.isEmpty = false := List.isEmpty_eq_false.2 hne
    unfold processBody
    simp [Option.some_bind, hparse, hempty]
  · intro notifs hreqs hnotifs
    have hobj : j.isObj = false := parseBatchNotifs_notObj j notifs hnotifs
    have heq : processValidatedRequest methods uriPath maxSize true (.okJson j)
        = processBody true methods uriPath (some j) j.isObj := rfl
    rw [heq, hobj]
    unfold processBody
    simp [Option.some_bind, hreqs, hnotifs]

/-- C1 counterexample: a concrete batch of three elements, two requests
with ids (K equal to two) and one notification. The claim predicts exactly
two envelopes in the aggregated array; the server parses the array as a
batch of notifications, answers 200 with an empty body holding zero
envelopes, and dispatches nothing. -/
theorem c1Counterexample :
    processValidatedRequest echoMethods "/" 1024 true (.okJson mixedBatchBody) =
      some (okResponse .empty) ∧
    ¬ (processValidatedRequest echoMethods "/" 1024 true (.okJson mixedBatchBody)).map
        (fun r => r.body.envelopeCount) = some 2 :=
  ⟨rfl, by decide⟩

/-- C1 witness: the amended theorem applied to the concrete two request
batch against the echo registry yields an aggregated array of exactly two
envelopes. -/
theorem c1Witness :
    ∃ envelopes, processValidatedRequest echoMethods "/" 1024 true (.okJson twoRequestBatchBody) =
        some (okResponse (.batch envelopes)) ∧ envelopes.length = 2 := by
  obtain ⟨envs, h1, h2⟩ := (c1BatchEnvelopeCount echoMethods "/" 1024 twoRequestBatchBody).1
    [{ id := .num 1, method := "echo", params := none },
     { id := .num 2, method := "echo", params := none }]
    rfl (by simp) echoSendsExactlyOne
  exact ⟨envs, h1, by rw [h2]; rfl⟩

/-- C2: with handlers honouring the sink contract of the spec (every sync
or async invocation writes at least one envelope), process_validated_request
never reaches the expect panic on the sink read: in every single mode case
(single request, degenerate batch, unrecognisable payload) at least one
envelope was sent before the sink is closed and drained, so reading one
envelope succeeds, and batch mode never reads a single envelope at all. -/
theorem c2SingleModeNoPanic (methods : Methods) (uriPath : String) (maxSize : Nat)
    (batchSupported : Bool) (rb : ReadBodyResult) (h : MethodsSendAtLeastOne methods) :
    processValidatedRequest methods uriPath maxSize batchSupported rb ≠ none := by
  cases rb with
  | tooLarge => simp [processValidatedRequest]
  | malform => simp [processValidatedRequest]
  | innerError => simp [processValidatedRequest]
  | okJson body =>
    simp only [processValidatedRequest]
    exact processBody_ne_none _ _ _ _ _ h
  | okInvalid b =>
    simp only [processValidatedRequest]
    exact processBody_ne_none _ _ _ _ _ h

/-- C2 witness: the theorem applied to the echo registry and a body that is
not valid JSON, a single mode case: the processor produces a response and
the read cannot panic. -/
theorem c2Witness :
    processValidatedRequest echoMethods "/" 1024 true (.okInvalid true) ≠ none :=
  c2SingleModeNoPanic echoMethods "/" 1024 true (.okInvalid true) echoSendsAtLeastOne

/-- C5: a POST body parsing as a single notification (a JSON object with a
method and, lacking an id, not parseable as a request) is answered with
HTTP 200 and an empty body carrying no envelope; the early return skips
the sink drain entirely. -/
theorem c5SingleNotifEmptyBody (methods : Methods) (uriPath : String) (maxSize : Nat)
    (batchSupported : Bool) (j : Json) (n : Notif)
    (hreq : parseRequest j = none) (hnotif : parseNotif j = some n) :
    processValidatedRequest methods uriPath maxSize batchSupported (.okJson j) =
      some (okResponse .empty) ∧ ResponseBody.empty.envelopeCount = 0 := by
  constructor
  · have hobj : j.isObj = true := parseNotif_isObj j n hnotif
    have heq : processValidatedRequest methods uriPath maxSize batchSupported (.okJson j)
        = processBody batchSupported methods uriPath (some j) j.isObj := rfl
    rw [heq, hobj]
    unfold processBody
    simp [Option.some_bind, hreq, hnotif]
  · rfl

/-- C5 witness: the theorem applied to the concrete ping notification. -/
theorem c5Witness :
    processValidatedRequest echoMethods "/" 1024 true (.okJson (notifJson "ping")) =
      some (okResponse .empty) ∧ ResponseBody.empty.envelopeCount = 0 :=
  c5SingleNotifEmptyBody echoMethods "/" 1024 true (notifJson "ping")
    { method := "ping", params := none } rfl rfl

/-- C6 (amended): on a server with batch support enabled (the default
configuration), the empty array body produces HTTP 200 with exactly one
error envelope, id null and code InvalidRequest, formatted as a single
object and not as an array. -/
theorem c6EmptyBatchSingleError (methods : Methods) (uriPath : String) (maxSize : Nat) :
    processValidatedRequest methods uriPath maxSize true (.okJson (.arr [])) =
      some (okResponse (.single (.error .null invalidRequestCode))) := rfl

/-- C6 counterexample: the claim is unconditional in the server
configuration, but with batch support disabled the empty array body is
caught by the batches not supported branch first, so the single envelope
carries the BatchesNotSupported code and not the claimed InvalidRequest
code. -/
theorem c6Counterexample :
    processValidatedRequest ([] : Methods) "/" 1024 false (.okJson (.arr [])) =
      some (okResponse (.single (.error .null batchesNotSupportedCode))) ∧
    batchesNotSupportedCode ≠ invalidRequestCode :=
  ⟨rfl, by decide⟩

/-- C7: when batch support is disabled, any body parsing as a batch of
requests is answered in single envelope mode with exactly one error
envelope, id null and the BatchesNotSupported code; the response does not
depend on the registry or on the batch elements, so no element is
dispatched. -/
theorem c7BatchesNotSupported (methods : Methods) (uriPath : String) (maxSize : Nat)
    (j : Json) (reqs : List Request) (hparse : parseBatchRequests j = some reqs) :
    processValidatedRequest methods uriPath maxSize false (.okJson j) =
      some (okResponse (.single (.error .null batchesNotSupportedCode))) := by
  have hobj : j.isObj = false := parseBatchRequests_notObj j reqs hparse
  have heq : processValidatedRequest methods uriPath maxSize false (.okJson j)
      = processBody false methods uriPath (some j) j.isObj := rfl
  rw [heq, hobj]
  unfold processBody
  simp [Option.some_bind, hparse, finishSingle]

/-- C7 witness: the theorem applied to the concrete two request batch with
batch support disabled. -/
theorem c7Witness :
    processValidatedRequest echoMethods "/" 1024 false (.okJson twoRequestBatchBody) =
      some (okResponse (.single (.error .null batchesNotSupportedCode))) :=
  c7BatchesNotSupported echoMethods "/" 1024 twoRequestBatchBody
    [{ id := .num 1, method := "echo", params := none },
     { id := .num 2, method := "echo", params := none }] rfl

theorem returnOrigin_spec (headers : List (String × String)) (host : String)
    (hhost : readHeaderValue headers "host" = some host) :
    returnOriginIfDifferentFromHost headers =
      (match readHeaderValue headers "origin" with
       | some origin => if origin = host then none else some origin
       | none => none) := by
  unfold returnOriginIfDifferentFromHost
  rw [hhost]
  cases horig : readHeaderValue headers "origin" with
  | none => rfl
  | some origin =>
    by_cases heq : origin = host
    · simp [heq]
    · simp [heq]

/-- C3 (amended): of the four claimed failure reasons only one yields the
500 response. Part one: when an envelope was produced and the handler
reported failure, the response is the 500 internal error. Part two: when
no envelope was produced the rx.next().await at line 807 pends forever
(the sink holding the only sender is alive and rx.close() is never
called), so the request hangs and no response is produced. Part three: the
absent method case in particular produces no envelope and therefore hangs
rather than answering 500. The fourth reason, an envelope that is not
parseable as an object with a result field while the handler reported
success, panics in the expect call, as the counterexample shows. -/
theorem c3HealthFailure500 (healthApi : HealthApi) (methods : Methods) :
    (∀ env, (healthExec healthApi methods).2.head? = some env →
      (healthExec healthApi methods).1 = false →
      processHealthRequest healthApi methods = .response internalErrorResponse) ∧
    ((healthExec healthApi methods).2.head? = none →
      processHealthRequest healthApi methods = .pending) ∧
    (lookupMethod methods healthApi.method = none →
      processHealthRequest healthApi methods = .pending) := by
  refine ⟨?_, ?_, ?_⟩
  · intro env hhead hfalse
    unfold processHealthRequest
    simp [hhead, hfalse]
  · intro hnone
    unfold processHealthRequest
    simp [hnone]
  · intro habsent
    have hnone : (healthExec healthApi methods).2.head? = none := by
      simp [healthExec, habsent]
    unfold processHealthRequest
    simp [hnone]

/-- C3 counterexample: two concrete failure reasons of the claim that do
not produce the claimed 500 response. A health configuration whose method
is not registered writes nothing to the sink, so the request pends forever
on the sink read and no response is produced; a configured method whose
handler writes an error envelope and reports success (the shape the
standard handler wrappers give a method returning an error) makes the
source panic in the expect call on the envelope parse. Neither outcome is
the 500 response the claim requires. -/
theorem c3Counterexample :
    processHealthRequest healthMissingApi ([] : Methods) = .pending ∧
    processHealthRequest healthErrApi healthErrMethods = .panicked ∧
    HealthResult.pending ≠ .response internalErrorResponse ∧
    HealthResult.panicked ≠ .response internalErrorResponse :=
  ⟨rfl, rfl, fun hcontra => HealthResult.noConfusion hcontra,
   fun hcontra => HealthResult.noConfusion hcontra⟩

/-- C3 witness: the amended theorem applied to concrete inputs: a handler
that writes an envelope and reports failure gets the 500 internal error,
and an unregistered health method makes the request pend forever. -/
theorem c3Witness :
    processHealthRequest healthFalseApi healthFalseMethods =
      .response internalErrorResponse ∧
    processHealthRequest healthMissingApi ([] : Methods) = .pending :=
  ⟨(c3HealthFailure500 healthFalseApi healthFalseMethods).1
      (.error (.num 0) (-32000)) rfl rfl,
   (c3HealthFailure500 healthMissingApi ([] : Methods)).2.2 rfl⟩

/-- C4: for an accepted POST request (host header present, all three
access control checks passing, JSON content type) that produced a
response, the access-control-allow-origin header is present exactly when
the request has an origin header whose value differs from the host header
value, and when present it echoes that origin. -/
theorem c4CorsOriginEcho (acl : ACL) (methods : Methods) (healthApi : Option HealthApi)
    (maxSize : Nat) (batchSupported : Bool) (req : HttpRequest) (host : String)
    (res : HttpResponse)
    (hhost : readHeaderValue req.headers "host" = some host)
    (hvhost : acl.verifyHost host = true)
    (hvorigin : acl.verifyOrigin (readHeaderValue req.headers "origin") host = true)
    (hvheaders : acl.verifyHeaders (req.headers.map (fun p => p.1))
        (getCorsRequestHeaders req.headers) = true)
    (hpost : req.method = .post)
    (hct : contentTypeIsJson req.headers = true)
    (hres : handleRequest acl methods healthApi maxSize batchSupported req = some res) :
    res.corsAllowOrigin =
      (match readHeaderValue req.headers "origin" with
       | some origin => if origin = host then none else some origin
       | none => none) := by
  unfold handleRequest at hres
  rw [hhost] at hres
  simp only [hvhost, hvorigin, hvheaders, hpost, hct, Bool.not_true, Bool.false_eq_true,
    if_false, if_true] at hres
  rw [returnOrigin_spec req.headers host hhost] at hres
  rw [Option.map_eq_some'] at hres
  obtain ⟨r0, hr0, hgr⟩ := hres
  have hnone : r0.corsAllowOrigin = none :=
    processValidatedRequest_corsNone _ _ _ _ _ _ hr0
  cases horig : readHeaderValue req.headers "origin" with
  | none =>
    rw [horig] at hgr
    simp at hgr
    rw [← hgr]
    simp [hnone]
  | some origin =>
    rw [horig] at hgr
    by_cases heq : origin = host
    · simp [heq] at hgr ⊢
      rw [← hgr]
      exact hnone
    · simp [heq] at hgr ⊢
      rw [← hgr]

/-- C4 witness: the theorem applied to a concrete accepted POST whose
origin differs from its host: the response carries the echoed origin. -/
theorem c4Witness :
    HttpResponse.corsAllowOrigin
        { status := 200, body := .single (.error .null invalidRequestCode),
          corsAllowOrigin := some "http://other.example" } =
      (match readHeaderValue corsPostRequest.headers "origin" with
       | some origin => if origin = "server.example" then none else some origin
       | none => none) :=
  c4CorsOriginEcho allowAllAcl ([] : Methods) none 1024 true corsPostRequest
    "server.example"
    { status := 200, body := .single (.error .null invalidRequestCode),
      corsAllowOrigin := some "http://other.example" }
    rfl rfl rfl rfl rfl rfl rfl

/-- C8: a dispatched request whose registered method is of subscription or
unsubscription kind receives an error envelope with the InternalError code
and the original request id, in single mode (part one, where that envelope
is the whole response) and inside a batch (part two, where it is a member
of the aggregated array). -/
theorem c8SubscriptionInternalError (methods : Methods) (uriPath : String) (maxSize : Nat)
    (batchSupported : Bool) (j : Json) :
    (∀ req entry, parseRequest j = some req →
      lookupMethod methods req.method = some entry →
      (entry.kind = .subscription ∨ entry.kind = .unsubscription) →
      processValidatedRequest methods uriPath maxSize batchSupported (.okJson j) =
        some (okResponse (.single (.error req.id internalErrorCode)))) ∧
    (∀ reqs req entry, parseBatchRequests j = some reqs → req ∈ reqs →
      lookupMethod methods req.method = some entry →
      (entry.kind = .subscription ∨ entry.kind = .unsubscription) →
      ∃ envelopes, processValidatedRequest methods uriPath maxSize true (.okJson j) =
          some (okResponse (.batch envelopes)) ∧
        Envelope.error req.id internalErrorCode ∈ envelopes) := by
  constructor
  · intro req entry hparse hlook hkind
    have hobj : j.isObj = true := parseRequest_isObj j req hparse
    have heq : processValidatedRequest methods uriPath maxSize batchSupported (.okJson j)
        = processBody batchSupported methods uriPath (some j) j.isObj := rfl
    rw [heq, hobj]
    have hcall : (executeSingleCall methods uriPath req).1 =
        [.error req.id internalErrorCode] := by
      rcases hkind with hk | hk <;> simp [executeSingleCall, hlook, hk]
    unfold processBody
    simp [Option.some_bind, hparse, hcall, finishSingle]
  · intro reqs req entry hparse hmem hlook hkind
    have hobj : j.isObj = false := parseBatchRequests_notObj j reqs hparse
    have hne : reqs ≠ [] := by
      intro hnil
      rw [hnil] at hmem
      cases hmem
    have hempty : reqs.isEmpty = false := List.isEmpty_eq_false.2 hne
    refine ⟨executeBatch methods uriPath reqs, ?_, ?_⟩
    · have heq : processValidatedRequest methods uriPath maxSize true (.okJson j)
          = processBody true methods uriPath (some j) j.isObj := rfl
      rw [heq, hobj]
      unfold processBody
      simp [Option.some_bind, hparse, hempty]
    · have hstep : (batchStep methods uriPath req).1 =
          [.error req.id internalErrorCode] := by
        rcases hkind with hk | hk <;> simp [batchStep, hlook, hk]
      simp only [executeBatch]
      apply List.mem_append_left
      apply List.mem_flatten_of_mem (List.mem_map_of_mem _ (List.mem_map_of_mem _ hmem))
      rw [hstep]
      exact List.mem_singleton.2 rfl

/-- C8 witness: both parts applied to concrete inputs against a registry
holding the subscription kind method sub. -/
theorem c8Witness :
    processValidatedRequest subMethods "/" 1024 true (.okJson (reqJson "sub" 7)) =
      some (okResponse (.single (.error (.num 7) internalErrorCode))) ∧
    ∃ envelopes, processValidatedRequest subMethods "/" 1024 true
          (.okJson (.arr [reqJson "sub" 7])) =
        some (okResponse (.batch envelopes)) ∧
      Envelope.error (.num 7) internalErrorCode ∈ envelopes := by
  constructor
  · exact (c8SubscriptionInternalError subMethods "/" 1024 true (reqJson "sub" 7)).1
      { id := .num 7, method := "sub", params := none }
      { kind := .subscription, claimOk := true } rfl rfl (Or.inl rfl)
  · exact (c8SubscriptionInternalError subMethods "/" 1024 true (.arr [reqJson "sub" 7])).2
      [{ id := .num 7, method := "sub", params := none }]
      { id := .num 7, method := "sub", params := none }
      { kind := .subscription, claimOk := true } rfl (by simp) rfl (Or.inl rfl)

/-- C9: stop succeeds at most once. The first call on a running server
handle succeeds, returning the join handle, queueing the stop message and
taking the handle; a call on a handle whose stop signal was already sent
(the slot is occupied) or whose channel is closed (the receiver is gone)
returns the AlreadyStopped error; in particular stopping the state a
successful stop leaves behind fails. -/
theorem c9StopAtMostOnce (j : Nat) :
    ServerHandle.stop (runningHandle j) =
      .ok (j, { receiverAlive := true, queued := 1, handle := none }) ∧
    (∀ h : ServerHandle, h.queued ≠ 0 ∨ h.receiverAlive = false →
      ServerHandle.stop h = .error .alreadyStopped) ∧
    ServerHandle.stop { receiverAlive := true, queued := 1, handle := none } =
      .error .alreadyStopped := by
  refine ⟨rfl, ?_, rfl⟩
  intro h hd
  unfold ServerHandle.stop
  rcases hd with hq | hr
  · have hbeq : (h.queued == 0) = false := by
      cases hq2 : h.queued with
      | zero => exact absurd hq2 hq
      | succ n => rfl
    simp [hbeq]
  · simp [hr]

/-- C9 witness: the theorem applied at handle tag zero; the second call on
the state the first stop produced fails with AlreadyStopped. -/
theorem c9Witness :
    ServerHandle.stop (runningHandle 0) =
      .ok (0, { receiverAlive := true, queued := 1, handle := none }) ∧
    ServerHandle.stop { receiverAlive := true, queued := 1, handle := none } =
      .error .alreadyStopped :=
  ⟨(c9StopAtMostOnce 0).1,
   (c9StopAtMostOnce 0).2.1 { receiverAlive := true, queued := 1, handle := none }
     (Or.inl (by decide))⟩

/-- C10: for a request carrying a host header, the three access control
checks are evaluated in their fixed order before the HTTP method is even
examined: whichever check fails first determines the corresponding 403
class denial, independent of the request method and content type. -/
theorem c10AclBeforeMethod (acl : ACL) (methods : Methods) (healthApi : Option HealthApi)
    (maxSize : Nat) (batchSupported : Bool) (req : HttpRequest) (host : String)
    (hhost : readHeaderValue req.headers "host" = some host) :
    (acl.verifyHost host = false →
      handleRequest acl methods healthApi maxSize batchSupported req =
        some hostNotAllowedResponse) ∧
    (acl.verifyHost host = true →
      acl.verifyOrigin (readHeaderValue req.headers "origin") host = false →
      handleRequest acl methods healthApi maxSize batchSupported req =
        some invalidAllowOriginResponse) ∧
    (acl.verifyHost host = true →
      acl.verifyOrigin (readHeaderValue req.headers "origin") host = true →
      acl.verifyHeaders (req.headers.map (fun p => p.1))
          (getCorsRequestHeaders req.headers) = false →
      handleRequest acl methods healthApi maxSize batchSupported req =
        some invalidAllowHeadersResponse) := by
  refine ⟨?_, ?_, ?_⟩
  · intro h1
    unfold handleRequest
    rw [hhost]
    simp [h1]
  · intro h1 h2
    unfold handleRequest
    rw [hhost]
    simp [h1, h2]
  · intro h1 h2 h3
    unfold handleRequest
    rw [hhost]
    simp [h1, h2, h3]

/-- C10 witness: a PUT request with a host header against a policy that
rejects every host receives the host denial, not the 405 method denial. -/
theorem c10Witness :
    handleRequest rejectHostAcl ([] : Methods) none 1024 true putRequest =
      some hostNotAllowedResponse :=
  (c10AclBeforeMethod rejectHostAcl ([] : Methods) none 1024 true putRequest
    "server.example" rfl).1 rfl
